import Mathlib

/-!
Verification of the retrieval-augmented chatbot core (`rag_chatbot.py`).

The Python source defines a `Chatbot` class that builds an in-memory
knowledge base (parallel lists `problem_ids`, `problem_data_map`, and a
FAISS inner-product index) from a corpus of problem files, and answers
queries by embedding the raw query text, searching the index, and joining
hits back to problem data.

Shallow embedding conventions:
* Embedding vectors are `List ℚ` (floating point modelled by rationals).
* The BERT embedder, the problem loader, the base chatbot and the
  generation model live outside `src/`; they are modelled as opaque
  function parameters or, where the spec pins their behaviour down
  (the FAISS `IndexFlatIP.search` contract), modelled from the spec.
* Python exceptions are `Except String`; a `try/except` block is a
  `match` on the `Except` value.
-/

/-- A problem record: the five fields `_create_problem_context` reads with
`problem_data.get(key, '')`.  A missing key is `none`. -/
structure ProblemData where
  title : Option String
  statement : Option String
  inputSpec : Option String
  outputSpec : Option String
  solution : Option String
deriving DecidableEq

/-- An embedding vector (`numpy` float vector modelled over ℚ). -/
abbrev Vec := List ℚ

/-- An embedder: `_get_bert_embedding`, an opaque external capability that
either returns a vector or raises. -/
abbrev Embedder := String → Except String Vec

/-- `_create_problem_context`: renders the canonical textual context of a
problem by concatenating its five fields in the fixed order
title, statement, input, output, solution with fixed separators. -/
def createProblemContext (d : ProblemData) : String :=
  "Title: " ++ d.title.getD "" ++ "\n" ++
  "Statement: " ++ d.statement.getD "" ++ "\n" ++
  "Input: " ++ d.inputSpec.getD "" ++ "\n" ++
  "Output: " ++ d.outputSpec.getD "" ++ "\n" ++
  "Solution: " ++ d.solution.getD ""

/-- The knowledge-base portion of the chatbot state: the parallel
identifier list `problem_ids`, the dict `problem_data_map` (an association
list in write order; Python dict lookup is modelled by `dictGet` below),
and the vectors stored in the FAISS index, in insertion order. -/
structure KB where
  problem_ids : List String
  problem_data_map : List (String × ProblemData)
  index : List Vec
deriving DecidableEq

/-- Python dict lookup `problem_data_map[pid]`: the most recent write wins;
`none` models a `KeyError`. -/
def dictGet (m : List (String × ProblemData)) (k : String) : Option ProblemData :=
  (m.reverse.find? fun p => p.1 == k).map (·.2)

/-- One iteration of the `_build_knowledge_base` loop body inside `try`:
load the problem (the loader's outcome is given, since `load_problem` is
external to `src/`), render its canonical context, embed it.  Any raised
exception surfaces as `.error`. -/
def processDoc (embed : Embedder) (res : Except String ProblemData) :
    Except String (ProblemData × Vec) := do
  let d ← res
  let v ← embed (createProblemContext d)
  pure (d, v)

/-- `_build_knowledge_base`: iterate the corpus (a list of
`(problem_id, load outcome)` pairs, one per `.json` file); on success
append the id, the data-map entry and the embedding together; on any
per-document exception record `(id, reason)` and continue.  Returns the
parallel lists plus the recorded failures. -/
def buildLoop (embed : Embedder) :
    List (String × Except String ProblemData) →
      List String × List (String × ProblemData) × List Vec × List (String × String)
  | [] => ([], [], [], [])
  | (pid, res) :: rest =>
    match processDoc embed res with
    | .ok (d, v) =>
      let (ids, dmap, embs, fails) := buildLoop embed rest
      (pid :: ids, (pid, d) :: dmap, v :: embs, fails)
    | .error e =>
      let (ids, dmap, embs, fails) := buildLoop embed rest
      (ids, dmap, embs, (pid, e) :: fails)

/-- `_build_knowledge_base` as a whole: after the pass, the accumulated
embeddings are bulk-loaded into the index (`self.index.add`); an empty
accumulation leaves the index empty. -/
def buildKnowledgeBase (embed : Embedder)
    (corpus : List (String × Except String ProblemData)) :
    KB × List (String × String) :=
  let (ids, dmap, embs, fails) := buildLoop embed corpus
  (⟨ids, dmap, embs⟩, fails)

/-- Inner product of two vectors (FAISS `IndexFlatIP` similarity). -/
def dot (q v : Vec) : ℚ := (List.zipWith (· * ·) q v).sum

/-- Ranking relation on `(handle, score)` hits: higher score first, ties
broken by insertion order (lower handle first). -/
def rankR (a b : ℤ × ℚ) : Prop := b.2 < a.2 ∨ (a.2 = b.2 ∧ a.1 ≤ b.1)

instance : DecidableRel rankR := fun a b => by
  unfold rankR; infer_instance

instance : IsTotal (ℤ × ℚ) rankR := by
  constructor
  intro a b
  rcases lt_trichotomy a.2 b.2 with h | h | h
  · exact Or.inr (Or.inl h)
  · rcases le_total a.1 b.1 with h1 | h1
    · exact Or.inl (Or.inr ⟨h, h1⟩)
    · exact Or.inr (Or.inr ⟨h.symm, h1⟩)
  · exact Or.inl (Or.inl h)

instance : IsTrans (ℤ × ℚ) rankR := by
  constructor
  rintro a b c (hab | ⟨hab, hab1⟩) (hbc | ⟨hbc, hbc1⟩)
  · exact Or.inl (hbc.trans hab)
  · exact Or.inl (hbc ▸ hab)
  · exact Or.inl (hab.symm ▸ hbc)
  · exact Or.inr ⟨hab.trans hbc, hab1.trans hbc1⟩

/-- Score FAISS reports in the padding slots when `k` exceeds the number
of stored vectors: the most negative representable float, modelled as a
rational below any inner product arising in practice. -/
def padScore : ℚ := -(2 ^ 128)

/-- Modelled from the spec: `faiss.IndexFlatIP.search` (the FAISS library
is not part of this repository).  Exact brute-force top-`k` by inner
product over the stored vectors: every stored vector is scored, hits are
ordered by descending score with ties broken by insertion order (lower
handle first), the first `k` are returned, and missing slots are padded
with the sentinel handle `-1`. -/
def searchIndex (st : KB) (qv : Vec) (k : ℕ) : List (ℤ × ℚ) :=
  let scored := st.index.enum.map fun p => ((p.1 : ℤ), dot qv p.2)
  let top := (List.insertionSort rankR scored).take k
  top ++ List.replicate (k - top.length) ((-1 : ℤ), padScore)

/-- The result-assembly loop of `_retrieve_relevant_info`: for each
`(idx, score)` hit, skip sentinel handles (`idx >= 0` check), resolve
`problem_ids[idx]` (an out-of-range handle raises `IndexError`), look the
id up in `problem_data_map` (a missing id raises `KeyError`), and emit
`(problem_id, score, problem_data)` in hit order. -/
def collectResults (st : KB) : List (ℤ × ℚ) →
    Except String (List (String × ℚ × ProblemData))
  | [] => .ok []
  | (idx, score) :: rest =>
    if 0 ≤ idx then
      match st.problem_ids.get? idx.toNat with
      | none => .error "IndexError: list index out of range"
      | some pid =>
        match dictGet st.problem_data_map pid with
        | none => .error ("KeyError: " ++ pid)
        | some d => (collectResults st rest).map fun rs => (pid, score, d) :: rs
    else
      collectResults st rest

/-- The body of the `try` block of `_retrieve_relevant_info`: embed the raw
query text (no canonicalization applied), search the index for the top
`top_k`, and assemble results.  `.error` is a raised exception reaching
the `except` handler. -/
def retrieveCore (embed : Embedder) (st : KB) (query : String) (topK : ℕ) :
    Except String (List (String × ℚ × ProblemData)) := do
  let qv ← embed query
  collectResults st (searchIndex st qv topK)

/-- `_retrieve_relevant_info`: the `try` body wrapped in the blanket
`except Exception` handler, which prints the error and returns `[]`. -/
def retrieveRelevantInfo (embed : Embedder) (st : KB) (query : String)
    (topK : ℕ) : List (String × ℚ × ProblemData) :=
  match retrieveCore embed st query topK with
  | .ok rs => rs
  | .error _ => []

/-- Boolean test that `needle` is a prefix of `hay` (character lists). -/
def isPrefixOfB : List Char → List Char → Bool
  | [], _ => true
  | _ :: _, [] => false
  | a :: as, b :: bs => a == b && isPrefixOfB as bs

/-- Python substring containment `needle in hay`, on character lists. -/
def containsSub (needle : List Char) : List Char → Bool
  | [] => isPrefixOfB needle []
  | b :: bs => isPrefixOfB needle (b :: bs) || containsSub needle bs

/-- Python `str.lower()`, character by character. -/
def pyLower (s : String) : String := ⟨s.data.map Char.toLower⟩

/-- Python `str.strip()`: remove leading and trailing whitespace. -/
def pyStrip (s : String) : String :=
  ⟨((s.data.dropWhile Char.isWhitespace).reverse.dropWhile
      Char.isWhitespace).reverse⟩

/-- The greeting test of `respond`:
`any(greet in user_input.lower() for greet in ["hi", "hello", "hey"])` —
plain substring containment on the lowercased input, so it also fires on
longer words that merely contain a greeting. -/
def isGreetingLike (s : String) : Bool :=
  ["hi", "hello", "hey"].any fun g => containsSub g.data (pyLower s).data

/-- Modelled from the spec: the state owned by the base class
`ProblemChatbot` (its source is not under `src/`).  The RAG layer reads
`current_problem` (its Python truthiness modelled by `Option`),
`problem_data` and `conversation_history`, and mutates base state only
through `super().respond`. -/
structure BaseState where
  current_problem : Option String
  problem_data : Option ProblemData
  conversation_history : List String
deriving DecidableEq

/-- The whole chatbot state: the knowledge base built at construction
plus the base-class state. -/
structure ChatState where
  kb : KB
  base : BaseState
deriving DecidableEq

/-- Externally observable calls the RAG layer itself makes while
responding (beyond the base chatbot's own behaviour). -/
inductive Effect
  | retrievalCall (query : String)
  | generationCall (prompt : String)
deriving DecidableEq

/-- The opaque external collaborators of `respond`, all defined outside
`src/`: the base chatbot's `respond` and `_build_context`, the system
message builder, and the generation model. -/
structure Collaborators where
  baseRespond : String → BaseState → String × BaseState
  buildContext : BaseState → String
  systemMessage : BaseState → String
  generate : String → List String → String → String
  formatScore : ℚ → String

/-- `respond`: strip the input, call the base chatbot first, return its
response unchanged when the input looks like a greeting or no current
problem is active; otherwise retrieve relevant problems, assemble the
RAG prompt, and call the generation model.  Returns the new state, the
response text, and the list of RAG-layer effects (Python's `:.2f` score
formatting is the opaque `formatScore`). -/
def respond (embed : Embedder) (co : Collaborators) (st : ChatState)
    (user_input0 : String) : ChatState × String × List Effect :=
  let user_input := pyStrip user_input0
  let (parent_response, base1) := co.baseRespond user_input st.base
  let st1 : ChatState := ⟨st.kb, base1⟩
  if isGreetingLike user_input || st1.base.current_problem.isNone then
    (st1, parent_response, [])
  else
    let retrieved := retrieveRelevantInfo embed st1.kb user_input 3
    let rag_context := String.intercalate "\n"
      (retrieved.map fun r =>
        "Relevant Problem " ++ r.1 ++ " (score: " ++ co.formatScore r.2.1 ++
        "):\n" ++ createProblemContext r.2.2)
    let current_context :=
      if st1.base.current_problem.isSome && st1.base.problem_data.isSome then
        "\nCurrent Problem Context:\n" ++ co.buildContext st1.base
      else ""
    let final_prompt :=
      "User question: " ++ user_input ++ "\n\n" ++
      "Retrieved relevant information:\n" ++ rag_context ++ "\n" ++
      current_context ++ "\n\n" ++
      "Provide a detailed response that:\n" ++
      "1. Directly addresses the user's question\n" ++
      "2. References relevant information from similar problems when helpful\n" ++
      "3. Maintains focus on competitive programming best practices"
    let response := co.generate final_prompt st1.base.conversation_history
      (co.systemMessage st1.base)
    (st1, response,
      [Effect.retrievalCall user_input, Effect.generationCall final_prompt])

/-! ## Properties of the knowledge-base build -/

/-- The failure record the build loop keeps for a document, if any. -/
def docFailureOf (embed : Embedder) (doc : String × Except String ProblemData) :
    Option (String × String) :=
  match processDoc embed doc.2 with
  | .ok _ => none
  | .error e => some (doc.1, e)

/-- The successful entry the build loop appends for a document, if any. -/
def docEntryOf (embed : Embedder) (doc : String × Except String ProblemData) :
    Option (String × ProblemData × Vec) :=
  match processDoc embed doc.2 with
  | .ok (d, v) => some (doc.1, d, v)
  | .error _ => none

/-- Strict ranking on hits: strictly higher score first, equal scores
ordered by strictly lower handle (insertion order). -/
def rankStrict (a b : ℤ × ℚ) : Prop := b.2 < a.2 ∨ (a.2 = b.2 ∧ a.1 < b.1)

/-- A sample problem record for concrete evaluations. -/
def sampleDoc : ProblemData :=
  ⟨some "Two Sum", some "find pair summing to target", none, none, none⟩

/-- A second sample problem record. -/
def sampleDoc2 : ProblemData :=
  ⟨some "Graph BFS", some "find shortest path", some "n m", some "path", some "bfs"⟩

/-- A stub embedder returning a fixed one-dimensional vector. -/
def embedOne : Embedder := fun _ => .ok [1]

/-- A one-document corpus whose only document loads successfully. -/
def sampleCorpus : List (String × Except String ProblemData) :=
  [("p1", Except.ok sampleDoc)]

/-- A two-document corpus whose second document fails to load. -/
def sampleCorpus2 : List (String × Except String ProblemData) :=
  [("p1", Except.ok sampleDoc), ("p2", Except.error "DocumentLoadError")]

/-- A stub embedder that always raises. -/
def embedFail : Embedder := fun _ => .error "EmbeddingError"

/-- A corrupted knowledge base violating the parallel-sequence invariant:
one vector in the index but no stored identifier, so handle 0 cannot be
resolved. -/
def inconsistentKB : KB := ⟨[], [], [[1]]⟩

/-- Sample base-chatbot state with no active problem. -/
def sampleBase : BaseState := ⟨none, none, []⟩

/-- Sample base-chatbot state with an active problem. -/
def sampleBaseActive : BaseState := ⟨some "p1", some sampleDoc, []⟩

/-- Stub collaborators for concrete evaluations of `respond`. -/
def sampleCollab : Collaborators :=
  ⟨fun s b => ("base response to " ++ s, b), fun _ => "", fun _ => "sys",
   fun _ _ _ => "generated", fun _ => "0.00"⟩

/-- Sample whole-chatbot state with an empty knowledge base. -/
def sampleState : ChatState := ⟨⟨[], [], []⟩, sampleBase⟩

/-- Sample whole-chatbot state with an active problem. -/
def sampleStateActive : ChatState := ⟨⟨[], [], []⟩, sampleBaseActive⟩

theorem processDoc_ok_iff (embed : Embedder) (res : Except String ProblemData)
    (d : ProblemData) (v : Vec) :
    processDoc embed res = .ok (d, v) ↔
      res = .ok d ∧ embed (createProblemContext d) = .ok v := by
  cases res with
  | error e => simp [processDoc, Bind.bind, Except.bind]
  | ok d0 =>
    cases hv : embed (createProblemContext d0) with
    | error e =>
      constructor
      · intro h
        simp [processDoc, Bind.bind, Except.bind, hv] at h
      · rintro ⟨h1, h2⟩
        cases h1
        rw [hv] at h2
        cases h2
    | ok v0 =>
      constructor
      · intro h
        simp [processDoc, Bind.bind, Except.bind, hv, Pure.pure,
          Except.pure] at h
        obtain ⟨rfl, rfl⟩ := h
        exact ⟨rfl, hv⟩
      · rintro ⟨h1, h2⟩
        cases h1
        rw [hv] at h2
        cases h2
        simp [processDoc, Bind.bind, Except.bind, hv, Pure.pure, Except.pure]

theorem buildLoop_eq (embed : Embedder)
    (corpus : List (String × Except String ProblemData)) :
    buildLoop embed corpus =
      ((corpus.filterMap (docEntryOf embed)).map (·.1),
       (corpus.filterMap (docEntryOf embed)).map (fun e => (e.1, e.2.1)),
       (corpus.filterMap (docEntryOf embed)).map (·.2.2),
       corpus.filterMap (docFailureOf embed)) := by
  induction corpus with
  | nil => rfl
  | cons doc rest ih =>
    obtain ⟨pid, res⟩ := doc
    cases h : processDoc embed res with
    | ok dv =>
      obtain ⟨d, v⟩ := dv
      simp [buildLoop, h, ih, docEntryOf, docFailureOf, List.filterMap_cons]
    | error e =>
      simp [buildLoop, h, ih, docEntryOf, docFailureOf, List.filterMap_cons]

theorem length_entries_add_failures (embed : Embedder)
    (corpus : List (String × Except String ProblemData)) :
    (corpus.filterMap (docEntryOf embed)).length +
      (corpus.filterMap (docFailureOf embed)).length = corpus.length := by
  induction corpus with
  | nil => rfl
  | cons doc rest ih =>
    cases h : processDoc embed doc.2 with
    | ok dv =>
      simp [List.filterMap_cons, docEntryOf, docFailureOf, h, ← ih]
      omega
    | error e =>
      simp [List.filterMap_cons, docEntryOf, docFailureOf, h, ← ih]
      omega

/-- C1: for every corpus of N documents of which M fail during loading,
context rendering, or embedding, `_build_knowledge_base` completes (it is
a total function of the corpus), indexes exactly N − M entries, and the
recorded failure list is exactly the list of failing documents paired with
their reasons (hence has length M); no document's failure aborts the
build. -/
theorem build_tolerates_failures (embed : Embedder)
    (corpus : List (String × Except String ProblemData)) :
    (buildKnowledgeBase embed corpus).2 =
        corpus.filterMap (docFailureOf embed) ∧
      (buildKnowledgeBase embed corpus).1.problem_ids.length +
        (corpus.filterMap (docFailureOf embed)).length = corpus.length ∧
      (buildKnowledgeBase embed corpus).1.problem_ids.length =
        corpus.length - (corpus.filterMap (docFailureOf embed)).length := by
  have h := buildLoop_eq embed corpus
  have hlen := length_entries_add_failures embed corpus
  constructor
  · simp [buildKnowledgeBase, h]
  constructor
  · simp [buildKnowledgeBase, h]
    omega
  · simp [buildKnowledgeBase, h]
    omega

theorem docEntryOf_some (embed : Embedder)
    (doc : String × Except String ProblemData) (e : String × ProblemData × Vec)
    (h : docEntryOf embed doc = some e) :
    e.1 = doc.1 ∧ doc.2 = Except.ok e.2.1 ∧
      embed (createProblemContext e.2.1) = Except.ok e.2.2 := by
  unfold docEntryOf at h
  cases hp : processDoc embed doc.2 with
  | error err => rw [hp] at h; cases h
  | ok dv =>
    rw [hp] at h
    cases h
    have := (processDoc_ok_iff embed doc.2 dv.1 dv.2).mp hp
    exact ⟨rfl, this.1, this.2⟩

theorem entry_ids_sublist (embed : Embedder)
    (corpus : List (String × Except String ProblemData)) :
    ((corpus.filterMap (docEntryOf embed)).map (·.1)).Sublist
      (corpus.map Prod.fst) := by
  induction corpus with
  | nil => simp
  | cons doc rest ih =>
    cases h : docEntryOf embed doc with
    | none =>
      rw [List.filterMap_cons, h, List.map_cons]
      exact ih.trans (List.sublist_cons_self doc.1 (rest.map Prod.fst))
    | some e =>
      rw [List.filterMap_cons, h, List.map_cons, List.map_cons,
        (docEntryOf_some embed doc e h).1]
      exact ih.cons₂ doc.1

theorem length_entries_eq_countOk (embed : Embedder)
    (corpus : List (String × Except String ProblemData)) :
    (corpus.filterMap (docEntryOf embed)).length =
      corpus.countP (fun doc => (processDoc embed doc.2).isOk) := by
  induction corpus with
  | nil => rfl
  | cons doc rest ih =>
    cases h : processDoc embed doc.2 with
    | ok dv =>
      simp [List.filterMap_cons, List.countP_cons, docEntryOf, h, ih,
        Except.isOk, Except.toBool]
    | error e =>
      simp [List.filterMap_cons, List.countP_cons, docEntryOf, h, ih,
        Except.isOk, Except.toBool]

theorem mem_ids_of_ok (embed : Embedder)
    (corpus : List (String × Except String ProblemData)) (pid : String)
    (res : Except String ProblemData) (hmem : (pid, res) ∈ corpus)
    (hok : (processDoc embed res).isOk = true) :
    pid ∈ (buildKnowledgeBase embed corpus).1.problem_ids := by
  cases hp : processDoc embed res with
  | error e => simp [Except.isOk, Except.toBool, hp] at hok
  | ok dv =>
    have hentry : docEntryOf embed (pid, res) = some (pid, dv.1, dv.2) := by
      unfold docEntryOf
      rw [hp]
    have : (pid, dv.1, dv.2) ∈ corpus.filterMap (docEntryOf embed) :=
      List.mem_filterMap.mpr ⟨(pid, res), hmem, hentry⟩
    have hids : (buildKnowledgeBase embed corpus).1.problem_ids =
        (corpus.filterMap (docEntryOf embed)).map (·.1) := by
      simp [buildKnowledgeBase, buildLoop_eq]
    rw [hids]
    exact List.mem_map.mpr ⟨(pid, dv.1, dv.2), this, rfl⟩

theorem build_zip_spec (embed : Embedder)
    (corpus : List (String × Except String ProblemData)) :
    ∀ p ∈ (buildKnowledgeBase embed corpus).1.problem_ids.zip
        (buildKnowledgeBase embed corpus).1.index,
      ∃ d, (p.1, Except.ok d) ∈ corpus ∧
        embed (createProblemContext d) = Except.ok p.2 := by
  have hloop := buildLoop_eq embed corpus
  have hids : (buildKnowledgeBase embed corpus).1.problem_ids =
      (corpus.filterMap (docEntryOf embed)).map (·.1) := by
    simp [buildKnowledgeBase, hloop]
  have hvecs : (buildKnowledgeBase embed corpus).1.index =
      (corpus.filterMap (docEntryOf embed)).map (·.2.2) := by
    simp [buildKnowledgeBase, hloop]
  intro p hp
  rw [hids, hvecs, List.zip_map'] at hp
  obtain ⟨e, he, rfl⟩ := List.mem_map.mp hp
  obtain ⟨doc, hdoc, hde⟩ := List.mem_filterMap.mp he
  obtain ⟨h1, h2, h3⟩ := docEntryOf_some embed doc e hde
  refine ⟨e.2.1, ?_, h3⟩
  have : doc = (e.1, Except.ok e.2.1) := by
    obtain ⟨a, b⟩ := doc
    simp only at h1 h2
    rw [← h1, ← h2]
  rwa [this] at hdoc

/-- C3: after every build, `len(problem_ids) = len(index vectors)` = the
number of successfully embedded documents; when the corpus identifiers
are distinct (as `os.listdir` filenames are), each successfully built
document's identifier appears exactly once in `problem_ids`; and the
vector at position i of the index is the embedding of the canonical
context of the document whose identifier sits at position i of
`problem_ids` (insertion order is the correspondence). -/
theorem build_parallel_invariant (embed : Embedder)
    (corpus : List (String × Except String ProblemData))
    (hnodup : (corpus.map Prod.fst).Nodup) :
    ((buildKnowledgeBase embed corpus).1.problem_ids.length =
        (buildKnowledgeBase embed corpus).1.index.length) ∧
      ((buildKnowledgeBase embed corpus).1.problem_ids.length =
        corpus.countP (fun doc => (processDoc embed doc.2).isOk)) ∧
      (∀ pid res, (pid, res) ∈ corpus → (processDoc embed res).isOk = true →
        (buildKnowledgeBase embed corpus).1.problem_ids.count pid = 1) ∧
      (∀ p ∈ (buildKnowledgeBase embed corpus).1.problem_ids.zip
          (buildKnowledgeBase embed corpus).1.index,
        ∃ d, (p.1, Except.ok d) ∈ corpus ∧
          embed (createProblemContext d) = Except.ok p.2) := by
  have hloop := buildLoop_eq embed corpus
  have hids : (buildKnowledgeBase embed corpus).1.problem_ids =
      (corpus.filterMap (docEntryOf embed)).map (·.1) := by
    simp [buildKnowledgeBase, hloop]
  have hvecs : (buildKnowledgeBase embed corpus).1.index =
      (corpus.filterMap (docEntryOf embed)).map (·.2.2) := by
    simp [buildKnowledgeBase, hloop]
  refine ⟨?_, ?_, ?_, ?_⟩
  · rw [hids, hvecs, List.length_map, List.length_map]
  · rw [hids, List.length_map]
    exact length_entries_eq_countOk embed corpus
  · intro pid res hmem hok
    have hnd : (buildKnowledgeBase embed corpus).1.problem_ids.Nodup := by
      rw [hids]
      exact (entry_ids_sublist embed corpus).nodup hnodup
    exact List.count_eq_one_of_mem hnd (mem_ids_of_ok embed corpus pid res hmem hok)
  · exact build_zip_spec embed corpus

/-! ## Properties of index search and retrieval -/

theorem searchIndex_filter_eq (st : KB) (qv : Vec) (k : ℕ) :
    (searchIndex st qv k).filter (fun h => 0 ≤ h.1) =
      (List.insertionSort rankR
        (st.index.enum.map fun p => ((p.1 : ℤ), dot qv p.2))).take k := by
  unfold searchIndex
  rw [List.filter_append]
  have h1 : ∀ x ∈ (List.insertionSort rankR
      (st.index.enum.map fun p => ((p.1 : ℤ), dot qv p.2))).take k,
      0 ≤ x.1 := by
    intro x hx
    have hx2 := (List.take_sublist k _).mem hx
    rw [List.mem_insertionSort] at hx2
    obtain ⟨p, _, rfl⟩ := List.mem_map.mp hx2
    exact Int.ofNat_nonneg p.1
  have h2 : ∀ (m : ℕ),
      (List.replicate m ((-1 : ℤ), padScore)).filter (fun h => 0 ≤ h.1) = [] := by
    intro m
    apply List.filter_eq_nil_iff.mpr
    intro a ha
    rw [List.eq_of_mem_replicate ha]
    decide
  rw [h2, List.append_nil]
  apply List.filter_eq_self.mpr
  intro a ha
  exact decide_eq_true (h1 a ha)

theorem searchIndex_take_nodup_fst (st : KB) (qv : Vec) (k : ℕ) :
    (((List.insertionSort rankR
        (st.index.enum.map fun p => ((p.1 : ℤ), dot qv p.2))).take k).map
          Prod.fst).Nodup := by
  have hperm : (List.insertionSort rankR
      (st.index.enum.map fun p => ((p.1 : ℤ), dot qv p.2))).Perm
      (st.index.enum.map fun p => ((p.1 : ℤ), dot qv p.2)) :=
    List.perm_insertionSort rankR _
  have hnd0 : ((st.index.enum.map fun p => ((p.1 : ℤ), dot qv p.2)).map
      Prod.fst).Nodup := by
    rw [List.map_map]
    rw [show (Prod.fst ∘ fun p : ℕ × Vec => ((p.1 : ℤ), dot qv p.2)) =
        ((fun n : ℕ => (n : ℤ)) ∘ Prod.fst) from rfl]
    rw [← List.map_map, List.enum_map_fst]
    refine List.Nodup.map ?_ (List.nodup_range _)
    intro a b hab
    simpa using hab
  have hnd1 : ((List.insertionSort rankR
      (st.index.enum.map fun p => ((p.1 : ℤ), dot qv p.2))).map Prod.fst).Nodup :=
    ((hperm.map Prod.fst).nodup_iff).mpr hnd0
  exact ((List.take_sublist k _).map Prod.fst).nodup hnd1

theorem searchIndex_take_pairwise (st : KB) (qv : Vec) (k : ℕ) :
    List.Pairwise rankStrict
      ((List.insertionSort rankR
        (st.index.enum.map fun p => ((p.1 : ℤ), dot qv p.2))).take k) := by
  have hsorted : List.Pairwise rankR
      ((List.insertionSort rankR
        (st.index.enum.map fun p => ((p.1 : ℤ), dot qv p.2))).take k) :=
    List.Pairwise.sublist (List.take_sublist k _)
      (List.sorted_insertionSort rankR _)
  have hne : List.Pairwise (fun a b : ℤ × ℚ => a.1 ≠ b.1)
      ((List.insertionSort rankR
        (st.index.enum.map fun p => ((p.1 : ℤ), dot qv p.2))).take k) := by
    have hnd := searchIndex_take_nodup_fst st qv k
    exact List.pairwise_map.mp hnd
  refine (hsorted.and hne).imp ?_
  rintro a b ⟨hab | ⟨h1, h2⟩, hne1⟩
  · exact Or.inl hab
  · exact Or.inr ⟨h1, lt_of_le_of_ne h2 hne1⟩

theorem collectResults_ok_scores (st : KB) (hits : List (ℤ × ℚ)) :
    ∀ (rs : List (String × ℚ × ProblemData)), collectResults st hits = .ok rs →
      rs.map (fun r => r.2.1) = (hits.filter fun h => 0 ≤ h.1).map (·.2) := by
  induction hits with
  | nil =>
    intro rs h
    simp only [collectResults] at h
    cases h
    simp
  | cons hd rest ih =>
    intro rs h
    obtain ⟨idx, score⟩ := hd
    by_cases hpos : 0 ≤ idx
    · cases hg : st.problem_ids.get? idx.toNat with
      | none =>
        simp only [collectResults, if_pos hpos, hg] at h
        exact Except.noConfusion h
      | some pid =>
        simp only [collectResults, if_pos hpos, hg] at h
        cases hd2 : dictGet st.problem_data_map pid with
        | none => rw [hd2] at h; cases h
        | some d =>
          rw [hd2] at h
          cases hc : collectResults st rest with
          | error e => rw [hc] at h; simp [Except.map] at h
          | ok rs2 =>
            rw [hc] at h
            simp only [Except.map] at h
            cases h
            simp [List.filter_cons, hpos, ih rs2 hc]
    · simp only [collectResults, if_neg hpos] at h
      have : (decide (0 ≤ idx)) = false := decide_eq_false hpos
      simp only [List.filter_cons, this]
      exact ih rs h

theorem collectResults_replicate_sentinel (st : KB) (m : ℕ) (s : ℚ) :
    collectResults st (List.replicate m ((-1 : ℤ), s)) = .ok [] := by
  induction m with
  | zero => rfl
  | succ n ih =>
    rw [List.replicate_succ]
    simp only [collectResults, ih]
    rw [if_neg (by decide : ¬((0 : ℤ) ≤ -1))]

/-- C4: for every knowledge base, query vector and k, the non-sentinel
hits returned by the index search are sorted by non-increasing inner
product with ties between equal scores broken by insertion order (lower
handle first); hence every retrieval result sequence has non-increasing
scores. -/
theorem search_ranking_order (st : KB) (qv : Vec) (k : ℕ) :
    List.Pairwise rankStrict ((searchIndex st qv k).filter fun h => 0 ≤ h.1) ∧
      ∀ (embed : Embedder) (query : String),
        List.Pairwise (fun a b : String × ℚ × ProblemData => b.2.1 ≤ a.2.1)
          (retrieveRelevantInfo embed st query k) := by
  constructor
  · rw [searchIndex_filter_eq]
    exact searchIndex_take_pairwise st qv k
  · intro embed query
    cases he : embed query with
    | error msg =>
      simp [retrieveRelevantInfo, retrieveCore, Bind.bind, Except.bind, he]
    | ok qv2 =>
      cases hc : collectResults st (searchIndex st qv2 k) with
      | error msg =>
        simp [retrieveRelevantInfo, retrieveCore, Bind.bind, Except.bind, he, hc]
      | ok rs =>
        have hretr : retrieveRelevantInfo embed st query k = rs := by
          simp [retrieveRelevantInfo, retrieveCore, Bind.bind, Except.bind, he, hc]
        rw [hretr]
        have hsc := collectResults_ok_scores st _ rs hc
        have hp1 : List.Pairwise (fun a b : ℚ => b ≤ a)
            (((searchIndex st qv2 k).filter fun h => 0 ≤ h.1).map (·.2)) := by
          rw [searchIndex_filter_eq]
          refine List.pairwise_map.mpr ((searchIndex_take_pairwise st qv2 k).imp ?_)
          rintro a b (h | ⟨h, _⟩)
          · exact le_of_lt h
          · exact le_of_eq h.symm
        rw [← hsc] at hp1
        exact List.pairwise_map.mp hp1

/-- C5: every retrieval result sequence has length at most
min(k, number of indexed vectors) — likewise the non-sentinel part of the
raw search output; an empty corpus builds an empty knowledge base with no
failures, and retrieval against the empty knowledge base returns the
empty sequence for every query and k (no error escapes). -/
theorem retrieval_result_bound :
    (∀ (st : KB) (qv : Vec) (k : ℕ),
      ((searchIndex st qv k).filter fun h => 0 ≤ h.1).length ≤
        min k st.index.length) ∧
      (∀ (embed : Embedder) (st : KB) (q : String) (k : ℕ),
        (retrieveRelevantInfo embed st q k).length ≤ min k st.index.length) ∧
      (∀ embed : Embedder, buildKnowledgeBase embed [] = (⟨[], [], []⟩, [])) ∧
      (∀ (embed : Embedder) (q : String) (k : ℕ),
        retrieveRelevantInfo embed ⟨[], [], []⟩ q k = []) := by
  have hsearch : ∀ (st : KB) (qv : Vec) (k : ℕ),
      ((searchIndex st qv k).filter fun h => 0 ≤ h.1).length ≤
        min k st.index.length := by
    intro st qv k
    rw [searchIndex_filter_eq, List.length_take,
      (List.perm_insertionSort rankR _).length_eq, List.length_map,
      List.enum_length]
  refine ⟨hsearch, ?_, ?_, ?_⟩
  · intro embed st q k
    cases he : embed q with
    | error msg =>
      simp [retrieveRelevantInfo, retrieveCore, Bind.bind, Except.bind, he]
    | ok qv =>
      cases hc : collectResults st (searchIndex st qv k) with
      | error msg =>
        simp [retrieveRelevantInfo, retrieveCore, Bind.bind, Except.bind, he, hc]
      | ok rs =>
        have hretr : retrieveRelevantInfo embed st q k = rs := by
          simp [retrieveRelevantInfo, retrieveCore, Bind.bind, Except.bind, he, hc]
        rw [hretr]
        have hsc := collectResults_ok_scores st _ rs hc
        have hlen := congrArg List.length hsc
        rw [List.length_map, List.length_map] at hlen
        rw [hlen]
        exact hsearch st qv k
  · intro embed; rfl
  · intro embed q k
    cases he : embed q with
    | error msg =>
      simp [retrieveRelevantInfo, retrieveCore, Bind.bind, Except.bind, he]
    | ok qv =>
      have hs : searchIndex ⟨[], [], []⟩ qv k =
          List.replicate k ((-1 : ℤ), padScore) := by
        simp [searchIndex]
      simp [retrieveRelevantInfo, retrieveCore, Bind.bind, Except.bind, he, hs,
        collectResults_replicate_sentinel]

/-- C6: every indexed vector is the embedding of the canonical context
`createProblemContext` of its source document (fields concatenated in the
fixed order title, statement, input, output, solution), while retrieval
depends on the embedder only through its value at the raw query string —
no canonicalization is applied to queries. -/
theorem canonical_context_usage (embed e1 e2 : Embedder)
    (corpus : List (String × Except String ProblemData)) (st : KB)
    (q : String) (k : ℕ) (hq : e1 q = e2 q) :
    (∀ p ∈ (buildKnowledgeBase embed corpus).1.problem_ids.zip
        (buildKnowledgeBase embed corpus).1.index,
      ∃ d, (p.1, Except.ok d) ∈ corpus ∧
        embed (createProblemContext d) = Except.ok p.2) ∧
      retrieveRelevantInfo e1 st q k = retrieveRelevantInfo e2 st q k := by
  refine ⟨build_zip_spec embed corpus, ?_⟩
  simp only [retrieveRelevantInfo, retrieveCore, Bind.bind, Except.bind, hq]

/-- Witness for C6 at a concrete corpus, state, and embedder pair. -/
theorem canonical_context_usage_witness :
    (embedOne "how to find pairs" = embedOne "how to find pairs") ∧
      ((∀ p ∈ (buildKnowledgeBase embedOne sampleCorpus).1.problem_ids.zip
          (buildKnowledgeBase embedOne sampleCorpus).1.index,
        ∃ d, (p.1, Except.ok d) ∈ sampleCorpus ∧
          embedOne (createProblemContext d) = Except.ok p.2) ∧
        retrieveRelevantInfo embedOne ⟨[], [], []⟩ "how to find pairs" 3 =
          retrieveRelevantInfo embedOne ⟨[], [], []⟩ "how to find pairs" 3) :=
  ⟨rfl, canonical_context_usage embedOne embedOne embedOne
    sampleCorpus ⟨[], [], []⟩ "how to find pairs" 3 rfl⟩

/-- C7: a knowledge base with exactly one successfully embedded document
with identifier p1 answers any query at k = 3 with exactly one result
(p1, its inner-product score, the document); the two sentinel padding
slots returned by the search are filtered out before any lookup. -/
theorem single_document_retrieval (embed : Embedder) (D : ProblemData)
    (q : String) (v qv : Vec)
    (hD : embed (createProblemContext D) = Except.ok v)
    (hq : embed q = Except.ok qv) :
    retrieveRelevantInfo embed
      (buildKnowledgeBase embed [("p1", Except.ok D)]).1 q 3
      = [("p1", dot qv v, D)] := by
  have hp : processDoc embed (Except.ok D) = .ok (D, v) :=
    (processDoc_ok_iff embed (Except.ok D) D v).mpr ⟨rfl, hD⟩
  have hkb : buildKnowledgeBase embed [("p1", Except.ok D)] =
      (⟨["p1"], [("p1", D)], [v]⟩, []) := by
    simp [buildKnowledgeBase, buildLoop, hp]
  rw [hkb]
  have hsearch : searchIndex ⟨["p1"], [("p1", D)], [v]⟩ qv 3 =
      [((0 : ℤ), dot qv v), ((-1 : ℤ), padScore), ((-1 : ℤ), padScore)] := rfl
  have hcol : collectResults ⟨["p1"], [("p1", D)], [v]⟩
      [((0 : ℤ), dot qv v), ((-1 : ℤ), padScore), ((-1 : ℤ), padScore)] =
      .ok [("p1", dot qv v, D)] := rfl
  simp [retrieveRelevantInfo, retrieveCore, Bind.bind, Except.bind, hq,
    hsearch, hcol]

/-- Witness for C7 with a stub embedder and a concrete document. -/
theorem single_document_retrieval_witness :
    embedOne (createProblemContext sampleDoc) = Except.ok [1] ∧
      embedOne "unrelated query" = Except.ok [1] ∧
      retrieveRelevantInfo embedOne
        (buildKnowledgeBase embedOne [("p1", Except.ok sampleDoc)]).1
        "unrelated query" 3 = [("p1", dot [1] [1], sampleDoc)] :=
  ⟨rfl, rfl,
    single_document_retrieval embedOne sampleDoc "unrelated query" [1] [1]
      rfl rfl⟩

/-- C8: a failure raised while embedding the query surfaces as an
exception inside the `try` body and is caught at the retriever boundary:
`_retrieve_relevant_info` converts any raised error into the empty result
sequence instead of propagating it to the caller. -/
theorem retrieval_failures_nonfatal (embed : Embedder) (st : KB) (q : String)
    (k : ℕ) :
    (∀ msg, retrieveCore embed st q k = .error msg →
      retrieveRelevantInfo embed st q k = []) ∧
      (∀ msg, embed q = .error msg →
        retrieveCore embed st q k = .error msg ∧
          retrieveRelevantInfo embed st q k = []) := by
  constructor
  · intro msg h
    simp [retrieveRelevantInfo, h]
  · intro msg h
    have hcore : retrieveCore embed st q k = .error msg := by
      simp [retrieveCore, Bind.bind, Except.bind, h]
    exact ⟨hcore, by simp [retrieveRelevantInfo, hcore]⟩

/-- Witness for C8: the always-raising embedder degrades to an empty
result sequence. -/
theorem retrieval_failures_nonfatal_witness :
    embedFail "query" = .error "EmbeddingError" ∧
      retrieveCore embedFail inconsistentKB "query" 3 =
        .error "EmbeddingError" ∧
      retrieveRelevantInfo embedFail inconsistentKB "query" 3 = [] :=
  ⟨rfl, (retrieval_failures_nonfatal embedFail inconsistentKB "query" 3).2
    "EmbeddingError" rfl⟩

/-- Counterexample for C2 as stated: on a knowledge base whose index holds
one vector but whose identifier list is empty, the search returns the
non-sentinel handle 0, which fails to resolve; the raised `IndexError` is
absorbed by the blanket `except` handler and the call returns the empty
result sequence — precisely the conversion the claim rules out. -/
theorem unresolved_handle_swallowed_cex :
    (∃ h ∈ searchIndex inconsistentKB [1] 1, 0 ≤ h.1 ∧
        inconsistentKB.problem_ids.get? h.1.toNat = none) ∧
      retrieveCore embedOne inconsistentKB "q" 1 =
        .error "IndexError: list index out of range" ∧
      retrieveRelevantInfo embedOne inconsistentKB "q" 1 = [] := by
  refine ⟨⟨((0 : ℤ), dot [1] [1]), ?_, by decide, rfl⟩, rfl, rfl⟩
  have hs : searchIndex inconsistentKB [1] 1 = [((0 : ℤ), dot [1] [1])] := rfl
  rw [hs]
  exact List.mem_singleton.mpr rfl

theorem collectResults_error_of_unresolved (st : KB) (hits : List (ℤ × ℚ)) :
    (∃ h ∈ hits, 0 ≤ h.1 ∧ st.problem_ids.get? h.1.toNat = none) →
      ∃ msg, collectResults st hits = .error msg := by
  induction hits with
  | nil =>
    rintro ⟨h, hmem, _⟩
    cases hmem
  | cons hd rest ih =>
    rintro ⟨h, hmem, hpos, hnone⟩
    obtain ⟨idx, score⟩ := hd
    rcases List.mem_cons.mp hmem with rfl | hmem2
    · refine ⟨"IndexError: list index out of range", ?_⟩
      simp only at hpos hnone
      simp only [collectResults, if_pos hpos, hnone]
    · obtain ⟨msg, hmsg⟩ := ih ⟨h, hmem2, hpos, hnone⟩
      by_cases hp : 0 ≤ idx
      · cases hg : st.problem_ids.get? idx.toNat with
        | none =>
          exact ⟨"IndexError: list index out of range",
            by simp only [collectResults, if_pos hp, hg]⟩
        | some pid =>
          cases hd2 : dictGet st.problem_data_map pid with
          | none =>
            exact ⟨"KeyError: " ++ pid,
              by simp only [collectResults, if_pos hp, hg, hd2]⟩
          | some d =>
            refine ⟨msg, ?_⟩
            simp only [collectResults, if_pos hp, hg, hd2, hmsg, Except.map]
      · refine ⟨msg, ?_⟩
        simp only [collectResults, if_neg hp]
        exact hmsg

/-- C2 amended: when a non-sentinel handle returned by the search lies
outside the identifier list, the result-assembly loop raises (the `try`
body yields an error), and the blanket `except` handler catches it and
converts the whole call into the empty result sequence, logged like any
recoverable query-time error — the inconsistency is NOT surfaced as a
distinct defect to the caller. -/
theorem unresolved_handle_caught (embed : Embedder) (st : KB) (q : String)
    (k : ℕ) (qv : Vec) (hq : embed q = Except.ok qv)
    (hbad : ∃ h ∈ searchIndex st qv k, 0 ≤ h.1 ∧
      st.problem_ids.get? h.1.toNat = none) :
    (∃ msg, retrieveCore embed st q k = .error msg) ∧
      retrieveRelevantInfo embed st q k = [] := by
  obtain ⟨msg, hmsg⟩ := collectResults_error_of_unresolved st _ hbad
  have hcore : retrieveCore embed st q k = .error msg := by
    simp [retrieveCore, Bind.bind, Except.bind, hq, hmsg]
  exact ⟨⟨msg, hcore⟩, by simp [retrieveRelevantInfo, hcore]⟩

/-- Witness for the amended C2 on the concrete inconsistent state. -/
theorem unresolved_handle_caught_witness :
    embedOne "q" = Except.ok [1] ∧
      ((∃ msg, retrieveCore embedOne inconsistentKB "q" 1 = .error msg) ∧
        retrieveRelevantInfo embedOne inconsistentKB "q" 1 = []) := by
  refine ⟨rfl, unresolved_handle_caught embedOne inconsistentKB "q" 1 [1] rfl
    ⟨((0 : ℤ), dot [1] [1]), ?_, by decide, rfl⟩⟩
  have hs : searchIndex inconsistentKB [1] 1 = [((0 : ℤ), dot [1] [1])] := rfl
  rw [hs]
  exact List.mem_singleton.mpr rfl

/-- Witness for C3 on a concrete two-document corpus with one load
failure. -/
theorem build_parallel_invariant_witness :
    (sampleCorpus2.map Prod.fst).Nodup ∧
      ((buildKnowledgeBase embedOne sampleCorpus2).1.problem_ids.length =
          (buildKnowledgeBase embedOne sampleCorpus2).1.index.length) ∧
        ((buildKnowledgeBase embedOne sampleCorpus2).1.problem_ids.length =
          sampleCorpus2.countP
            (fun doc => (processDoc embedOne doc.2).isOk)) ∧
        (∀ pid res, (pid, res) ∈ sampleCorpus2 →
          (processDoc embedOne res).isOk = true →
          (buildKnowledgeBase embedOne sampleCorpus2).1.problem_ids.count pid
            = 1) ∧
        (∀ p ∈ (buildKnowledgeBase embedOne sampleCorpus2).1.problem_ids.zip
            (buildKnowledgeBase embedOne sampleCorpus2).1.index,
          ∃ d, (p.1, Except.ok d) ∈ sampleCorpus2 ∧
            embedOne (createProblemContext d) = Except.ok p.2) :=
  ⟨by decide,
   build_parallel_invariant embedOne sampleCorpus2 (by decide)⟩

/-- C9: whenever the stripped user input contains a greeting substring
("hi", "hello", "hey" — also inside longer words) in its lowercased form,
or the base chatbot reports no active current problem after handling the
input, `respond` returns the base chatbot's response unchanged and
performs neither a retrieval call nor a generation call. -/
theorem greeting_or_no_problem_uses_base (embed : Embedder)
    (co : Collaborators) (st : ChatState) (input : String)
    (h : isGreetingLike (pyStrip input) = true ∨
      (co.baseRespond (pyStrip input) st.base).2.current_problem = none) :
    respond embed co st input =
      (⟨st.kb, (co.baseRespond (pyStrip input) st.base).2⟩,
       (co.baseRespond (pyStrip input) st.base).1, []) := by
  rcases h with h | h
  · simp [respond, h]
  · simp [respond, h]

/-- Witness for C9: a greeting buried inside "which" routes to the base
response even though a problem is active. -/
theorem greeting_uses_base_witness :
    (isGreetingLike (pyStrip " Which algorithm? ") = true ∨
      (sampleCollab.baseRespond (pyStrip " Which algorithm? ")
        sampleStateActive.base).2.current_problem = none) ∧
      respond embedOne sampleCollab sampleStateActive " Which algorithm? " =
        (⟨sampleStateActive.kb,
          (sampleCollab.baseRespond (pyStrip " Which algorithm? ")
            sampleStateActive.base).2⟩,
         (sampleCollab.baseRespond (pyStrip " Which algorithm? ")
            sampleStateActive.base).1, []) :=
  ⟨Or.inl (by decide),
   greeting_or_no_problem_uses_base embedOne sampleCollab sampleStateActive
     " Which algorithm? " (Or.inl (by decide))⟩

/-- C10: no `respond` call ever changes the knowledge base: the identifier
list, the identifier-to-data map and the index vectors after the call are
those before it, for every embedder, every set of collaborators (the base
chatbot may mutate only its own state) and every input; retrieval itself
is a pure function of the knowledge base in this model, mutating
nothing. -/
theorem knowledge_base_read_only (embed : Embedder) (co : Collaborators)
    (st : ChatState) (input : String) :
    ((respond embed co st input).1.kb = st.kb) ∧
      ((respond embed co st input).1.kb.problem_ids = st.kb.problem_ids ∧
        (respond embed co st input).1.kb.problem_data_map =
          st.kb.problem_data_map ∧
        (respond embed co st input).1.kb.index = st.kb.index) := by
  have h : (respond embed co st input).1.kb = st.kb := by
    by_cases hc : (isGreetingLike (pyStrip input) ||
        (co.baseRespond (pyStrip input) st.base).2.current_problem.isNone)
        = true
    · simp [respond, hc]
    · simp only [respond]
      rw [if_neg (by simpa using hc)]
  exact ⟨h, by rw [h], by rw [h], by rw [h]⟩
